import Mathlib

/-!
Shallow embedding of the itinerary-generation core of the Lille trip planner
(`src/planner.py`): the haversine distance utility, the proximity selector
`_pick_nearby`, the singleton selectors `_pick_one` and `pick_unique_hotel`,
and the itinerary builder `plan_trip`, together with theorems settling the
specification claims about them.

Modelling conventions:
* A POI record is a Python dict with fields `name`, `latitude`, `longitude`
  (plus metadata the planner never touches).  In the main model coordinates
  are `Option ℚ` — the input domain stated by the spec (floats or
  absent/null); `none` models an absent/null field, and Python truthiness of
  a float is `q ≠ 0`.  A second, dynamic model (`PyVal`/`DPOI` below) keeps
  the untyped field values, including strings, to settle the exception
  claim.
* `random.choice(available)` is modelled by indexing with `seed % length`
  where `seed` is an arbitrary natural number supplied by the caller;
  quantifying over seeds covers every outcome the Python call can produce.
  `plan_trip` receives a stream `g : Nat → Nat` supplying one seed per
  random call.
* Python's stable `list.sort(key=...)` is modelled by `List.insertionSort`
  with the pulled-back `≤` on keys, which is stable in the same sense.
* `remaining = [x for x in available if x is not first]` removes exactly the
  chosen position, hence `List.eraseIdx`.
* The distance key is kept abstract: `pick_nearby` takes any
  `dist : ℚ → ℚ → ℚ → ℚ → α` into a linear order; the source instantiates it
  with `_haversine` (embedded over ℝ as `haversine` below).
* Python sets of names are `Finset String`; `set.add` is `insert`.
* The `date` field of a day record is kept as the ordinal day number
  `start_date + i`; the source stores `strftime("%d-%m-%Y")` of that date,
  an injective rendering, so one calendar day is one unit.
-/

/-- A point of interest: dict with `name`, `latitude`, `longitude`.
An absent or empty name is modelled by `""` (both are falsy in Python);
an absent/null coordinate is `none`. -/
structure POI where
  name : String
  latitude : Option ℚ
  longitude : Option ℚ
deriving DecidableEq

instance : Inhabited POI := ⟨⟨"", none, none⟩⟩

/-- Python truthiness of a coordinate field: absent/null is falsy, a float
is truthy iff nonzero. -/
def truthyCoord : Option ℚ → Bool
  | none => false
  | some q => decide (q ≠ 0)

/-- Coordinate value of a POI that passed the truthiness filter (the filter
guarantees the field is present, so the default is never used). -/
def POI.lat (x : POI) : ℚ := x.latitude.getD 0

/-- Longitude value of a POI that passed the truthiness filter. -/
def POI.lon (x : POI) : ℚ := x.longitude.getD 0

/-- Eligibility filter of `_pick_nearby` (planner.py lines 77–81):
`x.get("name") and x.get("name") not in used and x.get("latitude") and
x.get("longitude")`. -/
def eligibleAct (used : Finset String) (x : POI) : Bool :=
  decide (x.name ≠ "") && !decide (x.name ∈ used)
    && truthyCoord x.latitude && truthyCoord x.longitude

/-- Coordinate-only filter used by `pick_unique_hotel` (line 109) and by the
pool pre-filters of `plan_trip` (lines 115–116). -/
def coordOk (x : POI) : Bool :=
  truthyCoord x.latitude && truthyCoord x.longitude

/-- Sort key comparison used by `remaining.sort(key=...)` (lines 93–98): the
haversine-style distance from the reference POI, pulled back to a relation
on POIs.  `dist` abstracts `_haversine`. -/
def keyLe {α : Type} [LinearOrder α] (dist : ℚ → ℚ → ℚ → ℚ → α) (ref x y : POI) : Prop :=
  dist ref.lat ref.lon x.lat x.lon ≤ dist ref.lat ref.lon y.lat y.lon

instance {α : Type} [LinearOrder α] (dist : ℚ → ℚ → ℚ → ℚ → α) (ref : POI) :
    DecidableRel (keyLe dist ref) := by
  intro x y
  unfold keyLe
  infer_instance

instance {α : Type} [LinearOrder α] (dist : ℚ → ℚ → ℚ → ℚ → α) (ref : POI) :
    IsTotal POI (keyLe dist ref) :=
  ⟨fun _ _ => le_total _ _⟩

instance {α : Type} [LinearOrder α] (dist : ℚ → ℚ → ℚ → ℚ → α) (ref : POI) :
    IsTrans POI (keyLe dist ref) :=
  ⟨fun _ _ _ hxy hyz => le_trans hxy hyz⟩

/-- The while loop of `_pick_nearby` (lines 91–99): with `n` slots left to
fill and `ref` the most recently added POI, sort the remaining candidates by
distance from `ref` (stable sort), pop the closest, append it, recurse with
it as the new reference.  `n` is `k - len(result)` at loop entry. -/
def chainLoop {α : Type} [LinearOrder α] (dist : ℚ → ℚ → ℚ → ℚ → α) :
    Nat → POI → List POI → List POI
  | 0, _, _ => []
  | _ + 1, _, [] => []
  | n + 1, ref, x :: xs =>
    match (x :: xs).insertionSort (keyLe dist ref) with
    | [] => []
    | b :: rest => b :: chainLoop dist n b rest

/-- Embedding of `TravelPlanner._pick_nearby` (planner.py lines 74–101):
filter to eligible candidates; return them all when no more than `k`
survive; otherwise seed with a random choice and extend by the greedy
nearest-neighbour chain. -/
def pick_nearby {α : Type} [LinearOrder α] (dist : ℚ → ℚ → ℚ → ℚ → α)
    (items : List POI) (k : Nat) (used : Finset String) (seed : Nat) : List POI :=
  let available := items.filter (eligibleAct used)
  if available = [] then []
  else if available.length ≤ k then available
  else
    let i := seed % available.length
    let first := available.getD i default
    first :: chainLoop dist (k - 1) first (available.eraseIdx i)

/-- Embedding of `TravelPlanner._pick_one` (lines 103–106): filter by
non-empty name not in `used` (no coordinate check) and pick at random. -/
def pick_one (items : List POI) (used : Finset String) (seed : Nat) : Option POI :=
  let available := items.filter (fun x => decide (x.name ≠ "") && !decide (x.name ∈ used))
  if available = [] then none
  else some (available.getD (seed % available.length) default)

/-- Embedding of `TravelPlanner.pick_unique_hotel` (lines 108–110): filter
by truthy coordinates only (no name check) and pick at random. -/
def pick_unique_hotel (hotels : List POI) (seed : Nat) : Option POI :=
  let ok := hotels.filter coordOk
  if ok = [] then none
  else some (ok.getD (seed % ok.length) default)

/-- One day record appended by `plan_trip` (lines 145–153).  `date` holds
the ordinal day `start_date + (day - 1)`; the source stores its
`"%d-%m-%Y"` rendering. -/
structure DayPlan where
  day : Nat
  date : Nat
  morning_activities : List POI
  afternoon_activities : List POI
  breakfast : Option POI
  lunch : Option POI
  dinner : Option POI
deriving DecidableEq

instance : Inhabited DayPlan := ⟨⟨0, 0, [], [], none, none, none⟩⟩

/-- The recap record of `plan_trip` (lines 155–159). -/
structure Recap where
  hotel : Option String
  unique_restaurants : List String
  unique_activities : List String
deriving DecidableEq

/-- Effect of `for a in picked: used.add(a.get("name"))`. -/
def addNames (used : Finset String) (picked : List POI) : Finset String :=
  picked.foldl (fun u a => insert a.name u) used

/-- Effect of `if x: used.add(x.get("name"))` after a singleton pick. -/
def addOptName (used : Finset String) : Option POI → Finset String
  | none => used
  | some b => insert b.name used

/-- The day loop of `plan_trip` (lines 122–153): `n` days remain, `i` is
the current 0-based day index; threads the two usage sets and returns the
day records together with the final usage sets.  `g` supplies one seed per
random call (5 calls per day). -/
def planDays {α : Type} [LinearOrder α] (dist : ℚ → ℚ → ℚ → ℚ → α) (g : Nat → Nat)
    (sitesOk restaurantsOk : List POI) (start : Nat) :
    Nat → Nat → Finset String → Finset String →
      List DayPlan × Finset String × Finset String
  | 0, _, usedR, usedA => ([], usedR, usedA)
  | n + 1, i, usedR, usedA =>
    let morning := pick_nearby dist sitesOk 2 usedA (g (5 * i))
    let usedA1 := addNames usedA morning
    let afternoon := pick_nearby dist sitesOk 2 usedA1 (g (5 * i + 1))
    let usedA2 := addNames usedA1 afternoon
    let breakfast := pick_one restaurantsOk usedR (g (5 * i + 2))
    let usedR1 := addOptName usedR breakfast
    let lunch := pick_one restaurantsOk usedR1 (g (5 * i + 3))
    let usedR2 := addOptName usedR1 lunch
    let dinner := pick_one restaurantsOk usedR2 (g (5 * i + 4))
    let usedR3 := addOptName usedR2 dinner
    let rest := planDays dist g sitesOk restaurantsOk start n (i + 1) usedR3 usedA2
    (⟨i + 1, start + i, morning, afternoon, breakfast, lunch, dinner⟩ :: rest.1,
      rest.2.1, rest.2.2)

/-- Embedding of `TravelPlanner.plan_trip` (planner.py lines 112–160):
pick a hotel, pre-filter the restaurant and site pools by truthy
coordinates, run the day loop with fresh usage sets, and assemble the
recap (sorted distinct names used). -/
def plan_trip {α : Type} [LinearOrder α] (dist : ℚ → ℚ → ℚ → ℚ → α)
    (start nbDays : Nat) (hotels restaurants sites : List POI)
    (hseed : Nat) (g : Nat → Nat) : List DayPlan × Recap :=
  let hotel := pick_unique_hotel hotels hseed
  let restaurantsOk := restaurants.filter coordOk
  let sitesOk := sites.filter coordOk
  let r := planDays dist g sitesOk restaurantsOk start nbDays 0 ∅ ∅
  (r.1, ⟨hotel.map POI.name,
    r.2.1.sort (· ≤ ·),
    r.2.2.sort (· ≤ ·)⟩)

/-- All POI names occupying morning/afternoon activity slots of a plan, in
slot order. -/
def planActivityNames (plan : List DayPlan) : List String :=
  (plan.map (fun d =>
    d.morning_activities.map POI.name ++ d.afternoon_activities.map POI.name)).flatten

/-- All restaurant names occupying breakfast/lunch/dinner slots of a plan,
in slot order. -/
def planDiningNames (plan : List DayPlan) : List String :=
  (plan.map (fun d =>
    (d.breakfast.map POI.name).toList ++ (d.lunch.map POI.name).toList
      ++ (d.dinner.map POI.name).toList)).flatten

/-! ### Frame-effect model of `_pick_nearby`

Python mutates lists in place (`remaining.sort`, `remaining.pop(0)`,
`result.append`).  In `_pick_nearby` both `available` and `remaining` are
allocated fresh by list comprehensions (lines 77 and 89), so those
mutations never reach the caller's `items` list, and `used` is only read.
The state-passing embedding below makes the mutated bindings explicit: the
loop returns the final value of the `remaining` binding alongside the
result, and the selector returns the caller-visible final values of
`items` and `used`. -/

/-- State-passing form of the while loop: returns the result list together
with the final contents of the mutated `remaining` binding. -/
def chainLoopEff {α : Type} [LinearOrder α] (dist : ℚ → ℚ → ℚ → ℚ → α) :
    Nat → POI → List POI → List POI × List POI
  | 0, _, remaining => ([], remaining)
  | _ + 1, _, [] => ([], [])
  | n + 1, ref, x :: xs =>
    match (x :: xs).insertionSort (keyLe dist ref) with
    | [] => ([], [])
    | b :: rest =>
      let r := chainLoopEff dist n b rest
      (b :: r.1, r.2)

/-- State-passing form of `_pick_nearby`: returns the result together with
the caller-visible final values of the `items` and `used` arguments. -/
def pick_nearby_eff {α : Type} [LinearOrder α] (dist : ℚ → ℚ → ℚ → ℚ → α)
    (items : List POI) (k : Nat) (used : Finset String) (seed : Nat) :
    List POI × List POI × Finset String :=
  let available := items.filter (eligibleAct used)
  if available = [] then ([], items, used)
  else if available.length ≤ k then (available, items, used)
  else
    let i := seed % available.length
    let first := available.getD i default
    let r := chainLoopEff dist (k - 1) first (available.eraseIdx i)
    (first :: r.1, items, used)

/-! ### The haversine distance utility over the reals

`_haversine` (planner.py lines 59–68) is embedded over ℝ: `math.radians`,
`math.sin`, `math.cos`, `math.sqrt`, `math.atan2` become their real-number
counterparts. -/

/-- Embedding of `math.radians`: degrees to radians. -/
noncomputable def radians (x : ℝ) : ℝ := x * (Real.pi / 180)

/-- Embedding of `math.atan2` on the real plane (standard branch
conventions of the C library function). -/
noncomputable def atan2 (y x : ℝ) : ℝ :=
  if 0 < x then Real.arctan (y / x)
  else if x < 0 then
    (if 0 ≤ y then Real.arctan (y / x) + Real.pi else Real.arctan (y / x) - Real.pi)
  else
    (if 0 < y then Real.pi / 2 else if y < 0 then -(Real.pi / 2) else 0)

/-- Embedding of `_haversine` (planner.py lines 59–68): great-circle
distance in km, Earth radius 6371. -/
noncomputable def haversine (lat1 lon1 lat2 lon2 : ℝ) : ℝ :=
  let dlat := radians (lat2 - lat1)
  let dlon := radians (lon2 - lon1)
  let a := Real.sin (dlat / 2) ^ 2
    + Real.cos (radians lat1) * Real.cos (radians lat2) * Real.sin (dlon / 2) ^ 2
  6371 * 2 * atan2 (Real.sqrt a) (Real.sqrt (1 - a))

/-! ### Dynamic model

The claims about exception behaviour concern inputs outside the typed
domain: records whose `latitude`/`longitude` fields hold arbitrary Python
values, in particular non-numeric strings.  `PyVal` keeps the dynamic
value; the selectors become `Except`-valued, an `Except.error` modelling a
raised `TypeError` (from `math.radians` applied to a non-number inside the
sort key).  CPython's `list.sort(key=...)` computes every key before
reordering, so a failing key aborts the sort: `dynSort` computes all keys
with `mapM` first. -/

/-- A dynamic Python field value: `None`, a float, or a string. -/
inductive PyVal where
  | vnone : PyVal
  | vnum : ℚ → PyVal
  | vstr : String → PyVal
deriving DecidableEq

/-- Python truthiness of a dynamic value. -/
def PyVal.truthy : PyVal → Bool
  | .vnone => false
  | .vnum q => decide (q ≠ 0)
  | .vstr s => decide (s ≠ "")

/-- A dynamic value on which the numeric reading cannot raise once the
value is truthy: everything except a non-empty string. -/
def PyVal.numOrFalsy : PyVal → Bool
  | .vstr s => decide (s = "")
  | _ => true

/-- A POI record with dynamic coordinate fields. -/
structure DPOI where
  name : String
  latitude : PyVal
  longitude : PyVal
deriving DecidableEq

instance : Inhabited DPOI := ⟨⟨"", .vnone, .vnone⟩⟩

/-- Sort-key computation for the dynamic model: `_haversine` evaluated at
the two records' coordinate fields; `math.radians` raises `TypeError`
(modelled by `Except.error`) unless all four are numbers. -/
def dynKey {α : Type} (dist : ℚ → ℚ → ℚ → ℚ → α) (ref x : DPOI) : Except Unit α :=
  match ref.latitude, ref.longitude, x.latitude, x.longitude with
  | .vnum a, .vnum b, .vnum c, .vnum d => .ok (dist a b c d)
  | _, _, _, _ => .error ()

/-- Key computation pass of the dynamic sort: CPython's `list.sort` with a
key computes every key, in list order, before reordering; the first
failing key raises and aborts the sort. -/
def dynKeys {α : Type} (dist : ℚ → ℚ → ℚ → ℚ → α) (ref : DPOI) :
    List DPOI → Except Unit (List (α × DPOI))
  | [] => .ok []
  | x :: xs =>
    match dynKey dist ref x with
    | .error e => .error e
    | .ok q =>
      match dynKeys dist ref xs with
      | .error e => .error e
      | .ok ks => .ok ((q, x) :: ks)

/-- Dynamic model of `remaining.sort(key=...)`: compute every key, then
sort stably by key. -/
def dynSort {α : Type} [LinearOrder α] (dist : ℚ → ℚ → ℚ → ℚ → α)
    (ref : DPOI) (l : List DPOI) : Except Unit (List DPOI) :=
  match dynKeys dist ref l with
  | .error e => .error e
  | .ok keyed => .ok ((keyed.insertionSort (fun p q => p.1 ≤ q.1)).map Prod.snd)

/-- Dynamic model of the while loop of `_pick_nearby`; a raise inside the
sort key unwinds through the loop. -/
def dynChain {α : Type} [LinearOrder α] (dist : ℚ → ℚ → ℚ → ℚ → α) :
    Nat → DPOI → List DPOI → Except Unit (List DPOI)
  | 0, _, _ => .ok []
  | _ + 1, _, [] => .ok []
  | n + 1, ref, x :: xs =>
    match dynSort dist ref (x :: xs) with
    | .error e => .error e
    | .ok [] => .ok []
    | .ok (b :: rest) =>
      match dynChain dist n b rest with
      | .error e => .error e
      | .ok more => .ok (b :: more)

/-- Eligibility filter of `_pick_nearby` on dynamic records. -/
def dynEligible (used : Finset String) (x : DPOI) : Bool :=
  decide (x.name ≠ "") && !decide (x.name ∈ used)
    && x.latitude.truthy && x.longitude.truthy

/-- Dynamic model of `TravelPlanner._pick_nearby`. -/
def dynPickNearby {α : Type} [LinearOrder α] (dist : ℚ → ℚ → ℚ → ℚ → α)
    (items : List DPOI) (k : Nat) (used : Finset String) (seed : Nat) :
    Except Unit (List DPOI) :=
  let available := items.filter (dynEligible used)
  if available = [] then .ok []
  else if available.length ≤ k then .ok available
  else
    let i := seed % available.length
    let first := available.getD i default
    match dynChain dist (k - 1) first (available.eraseIdx i) with
    | .error e => .error e
    | .ok out => .ok (first :: out)

/-- Dynamic model of `TravelPlanner._pick_one`: total — no operation in it
can raise. -/
def dynPickOne (items : List DPOI) (used : Finset String) (seed : Nat) : Option DPOI :=
  let available := items.filter (fun x => decide (x.name ≠ "") && !decide (x.name ∈ used))
  if available = [] then none
  else some (available.getD (seed % available.length) default)

/-- Dynamic model of `TravelPlanner.pick_unique_hotel`: total — no
operation in it can raise. -/
def dynPickHotel (hotels : List DPOI) (seed : Nat) : Option DPOI :=
  let ok := hotels.filter (fun h => h.latitude.truthy && h.longitude.truthy)
  if ok = [] then none
  else some (ok.getD (seed % ok.length) default)

/-- Day record of the dynamic model. -/
structure DDayPlan where
  day : Nat
  date : Nat
  morning_activities : List DPOI
  afternoon_activities : List DPOI
  breakfast : Option DPOI
  lunch : Option DPOI
  dinner : Option DPOI
deriving DecidableEq

/-- Effect of `if x: used.add(x.get("name"))` in the dynamic model. -/
def dynAddOptName (used : Finset String) : Option DPOI → Finset String
  | none => used
  | some b => insert b.name used

/-- Dynamic model of the day loop of `plan_trip`; an error in any
`_pick_nearby` call propagates (the Python exception unwinds). -/
def dynPlanDays {α : Type} [LinearOrder α] (dist : ℚ → ℚ → ℚ → ℚ → α) (g : Nat → Nat)
    (sitesOk restaurantsOk : List DPOI) (start : Nat) :
    Nat → Nat → Finset String → Finset String →
      Except Unit (List DDayPlan × Finset String × Finset String)
  | 0, _, usedR, usedA => .ok ([], usedR, usedA)
  | n + 1, i, usedR, usedA =>
    match dynPickNearby dist sitesOk 2 usedA (g (5 * i)) with
    | .error e => .error e
    | .ok morning =>
      let usedA1 := morning.foldl (fun u a => insert a.name u) usedA
      match dynPickNearby dist sitesOk 2 usedA1 (g (5 * i + 1)) with
      | .error e => .error e
      | .ok afternoon =>
        let usedA2 := afternoon.foldl (fun u a => insert a.name u) usedA1
        let breakfast := dynPickOne restaurantsOk usedR (g (5 * i + 2))
        let usedR1 := dynAddOptName usedR breakfast
        let lunch := dynPickOne restaurantsOk usedR1 (g (5 * i + 3))
        let usedR2 := dynAddOptName usedR1 lunch
        let dinner := dynPickOne restaurantsOk usedR2 (g (5 * i + 4))
        let usedR3 := dynAddOptName usedR2 dinner
        match dynPlanDays dist g sitesOk restaurantsOk start n (i + 1) usedR3 usedA2 with
        | .error e => .error e
        | .ok rest =>
          .ok (⟨i + 1, start + i, morning, afternoon, breakfast, lunch, dinner⟩ :: rest.1,
            rest.2.1, rest.2.2)

/-- Recap record of the dynamic model. -/
structure DRecap where
  hotel : Option String
  unique_restaurants : List String
  unique_activities : List String
deriving DecidableEq

/-- Dynamic model of `TravelPlanner.plan_trip`. -/
def dynPlanTrip {α : Type} [LinearOrder α] (dist : ℚ → ℚ → ℚ → ℚ → α)
    (start nbDays : Nat) (hotels restaurants sites : List DPOI)
    (hseed : Nat) (g : Nat → Nat) : Except Unit (List DDayPlan × DRecap) :=
  let hotel := dynPickHotel hotels hseed
  let restaurantsOk := restaurants.filter (fun r => r.latitude.truthy && r.longitude.truthy)
  let sitesOk := sites.filter (fun s => s.latitude.truthy && s.longitude.truthy)
  match dynPlanDays dist g sitesOk restaurantsOk start nbDays 0 ∅ ∅ with
  | .error e => .error e
  | .ok r =>
    .ok (r.1, ⟨hotel.map DPOI.name,
      r.2.1.sort (· ≤ ·),
      r.2.2.sort (· ≤ ·)⟩)

/-! ### General list helpers -/

/-- A subpermutation maps to a subpermutation. -/
theorem subperm_map {γ δ : Type} (f : γ → δ) {l1 l2 : List γ} (h : List.Subperm l1 l2) :
    List.Subperm (l1.map f) (l2.map f) := by
  obtain ⟨l, hp, hs⟩ := h
  exact ⟨l.map f, hp.map f, hs.map f⟩

/-- A subpermutation of a duplicate-free list is duplicate-free. -/
theorem subperm_nodup {γ : Type} {l1 l2 : List γ} (h : List.Subperm l1 l2) (hd : l2.Nodup) :
    l1.Nodup := by
  obtain ⟨l, hp, hs⟩ := h
  exact (hd.sublist hs).perm hp

/-- Indexing with a default inside bounds lands in the list. -/
theorem getD_mem_of_lt {γ : Type} [Inhabited γ] {l : List γ} {i : Nat} (h : i < l.length) :
    l.getD i default ∈ l := by
  rw [List.getD_eq_getElem _ _ h]
  exact List.getElem_mem h

/-- Removing position `i` and putting the element back in front is a
permutation of the original list. -/
theorem cons_eraseIdx_perm {γ : Type} [Inhabited γ] [DecidableEq γ] {l : List γ} {i : Nat}
    (h : i < l.length) : List.Perm ((l.getD i default) :: l.eraseIdx i) l := by
  rw [List.getD_eq_getElem _ _ h]
  have h1 : List.Perm l (l[i] :: l.erase l[i]) := List.perm_cons_erase (List.getElem_mem h)
  have h2 : List.Perm (l.erase l[i]) (l.eraseIdx i) := List.erase_getElem h
  exact (h2.cons _).symm.trans h1.symm

/-! ### Core lemmas about the greedy chain and `pick_nearby` -/

/-- The chain loop selects a sub-multiset of its candidate pool. -/
theorem chainLoop_subperm {α : Type} [LinearOrder α] (dist : ℚ → ℚ → ℚ → ℚ → α) :
    ∀ (n : Nat) (ref : POI) (l : List POI), List.Subperm (chainLoop dist n ref l) l := by
  intro n
  induction n with
  | zero => intro ref l; simp only [chainLoop]; exact List.nil_subperm
  | succ n ih =>
    intro ref l
    match l with
    | [] => simp only [chainLoop]; exact List.nil_subperm
    | x :: xs =>
      have hperm : List.Perm ((x :: xs).insertionSort (keyLe dist ref)) (x :: xs) :=
        List.perm_insertionSort _ _
      cases hs : (x :: xs).insertionSort (keyLe dist ref) with
      | nil =>
        rw [hs] at hperm
        exact absurd hperm.symm.eq_nil (List.cons_ne_nil x xs)
      | cons b rest =>
        rw [hs] at hperm
        simp only [chainLoop]
        rw [hs]
        exact ((List.subperm_cons b).mpr (ih b rest)).trans hperm.subperm

/-- The chain loop fills at most `n` slots. -/
theorem chainLoop_length_le {α : Type} [LinearOrder α] (dist : ℚ → ℚ → ℚ → ℚ → α) :
    ∀ (n : Nat) (ref : POI) (l : List POI), (chainLoop dist n ref l).length ≤ n := by
  intro n
  induction n with
  | zero => intro ref l; simp only [chainLoop]; exact Nat.le_refl 0
  | succ n ih =>
    intro ref l
    match l with
    | [] => simp only [chainLoop]; exact Nat.zero_le _
    | x :: xs =>
      cases hs : (x :: xs).insertionSort (keyLe dist ref) with
      | nil =>
        simp only [chainLoop]
        rw [hs]
        exact Nat.zero_le _
      | cons b rest =>
        simp only [chainLoop]
        rw [hs]
        simp only [List.length_cons]
        exact Nat.succ_le_succ (ih b rest)

/-- `_pick_nearby` returns a sub-multiset of the filtered eligible list. -/
theorem pick_nearby_subperm {α : Type} [LinearOrder α] (dist : ℚ → ℚ → ℚ → ℚ → α)
    (items : List POI) (k : Nat) (used : Finset String) (seed : Nat) :
    List.Subperm (pick_nearby dist items k used seed) (items.filter (eligibleAct used)) := by
  unfold pick_nearby
  set available := items.filter (eligibleAct used) with havail
  by_cases h0 : available = []
  · simp only [h0, if_true, List.nil_subperm]
  · simp only [h0, if_false]
    by_cases hk : available.length ≤ k
    · simp only [hk, if_true]; exact List.Subperm.refl _
    · simp only [hk, if_false]
      have hlen : seed % available.length < available.length :=
        Nat.mod_lt _ (List.length_pos.mpr h0)
      have hperm := cons_eraseIdx_perm (l := available) (i := seed % available.length) hlen
      have hchain := chainLoop_subperm dist (k - 1)
        (available.getD (seed % available.length) default)
        (available.eraseIdx (seed % available.length))
      exact ((List.subperm_cons _).mpr hchain).trans hperm.subperm

/-- Everything `_pick_nearby` returns comes from the pool and passed the
eligibility filter. -/
theorem mem_pick_nearby_eligible {α : Type} [LinearOrder α] (dist : ℚ → ℚ → ℚ → ℚ → α)
    (items : List POI) (k : Nat) (used : Finset String) (seed : Nat) (x : POI)
    (hx : x ∈ pick_nearby dist items k used seed) :
    x ∈ items ∧ eligibleAct used x = true := by
  have hmem := (pick_nearby_subperm dist items k used seed).subset hx
  exact ⟨(List.mem_filter.mp hmem).1, (List.mem_filter.mp hmem).2⟩

/-- With `k ≥ 1`, `_pick_nearby` returns at most `k` items. -/
theorem pick_nearby_length_le {α : Type} [LinearOrder α] (dist : ℚ → ℚ → ℚ → ℚ → α)
    (items : List POI) (k : Nat) (used : Finset String) (seed : Nat) (hk : 1 ≤ k) :
    (pick_nearby dist items k used seed).length ≤ k := by
  unfold pick_nearby
  set available := items.filter (eligibleAct used)
  by_cases h0 : available = []
  · simp [h0]
  · simp only [h0, if_false]
    by_cases hkk : available.length ≤ k
    · simp [hkk]
    · simp only [hkk, if_false, List.length_cons]
      have hc := chainLoop_length_le dist (k - 1)
        (available.getD (seed % available.length) default)
        (available.eraseIdx (seed % available.length))
      omega

/-- `_pick_one` returns `none` exactly when the name filter leaves no
candidate. -/
theorem pick_one_eq_none_iff (items : List POI) (used : Finset String) (seed : Nat) :
    pick_one items used seed = none ↔
      items.filter (fun x => decide (x.name ≠ "") && !decide (x.name ∈ used)) = [] := by
  unfold pick_one
  by_cases h : items.filter (fun x => decide (x.name ≠ "") && !decide (x.name ∈ used)) = [] <;>
    simp [h]

/-- A successful `_pick_one` returns a pool element with a non-empty name
outside the exclusion set. -/
theorem pick_one_some_mem {items : List POI} {used : Finset String} {seed : Nat} {x : POI}
    (h : pick_one items used seed = some x) :
    x ∈ items ∧ x.name ≠ "" ∧ x.name ∉ used := by
  unfold pick_one at h
  set available := items.filter (fun x => decide (x.name ≠ "") && !decide (x.name ∈ used))
    with havail
  by_cases h0 : available = []
  · simp [h0] at h
  · simp only [h0, if_false, Option.some_inj] at h
    have hlen : seed % available.length < available.length :=
      Nat.mod_lt _ (List.length_pos.mpr h0)
    have hmem : x ∈ available := h ▸ getD_mem_of_lt hlen
    rw [havail] at hmem
    have hf := List.mem_filter.mp hmem
    have hp := hf.2
    simp only [Bool.and_eq_true, decide_eq_true_eq, Bool.not_eq_true', decide_eq_false_iff_not]
      at hp
    exact ⟨hf.1, hp.1, hp.2⟩

/-- The day loop emits exactly one record per remaining day. -/
theorem planDays_length {α : Type} [LinearOrder α] (dist : ℚ → ℚ → ℚ → ℚ → α) (g : Nat → Nat)
    (sitesOk restaurantsOk : List POI) (start : Nat) :
    ∀ (n i : Nat) (usedR usedA : Finset String),
      ((planDays dist g sitesOk restaurantsOk start n i usedR usedA).1).length = n := by
  intro n
  induction n with
  | zero => intro i uR uA; simp [planDays]
  | succ n ih =>
    intro i uR uA
    simp only [planDays, List.length_cons]
    rw [ih]

/-- Day and date fields of the `j`-th record emitted by the day loop. -/
theorem planDays_getD {α : Type} [LinearOrder α] (dist : ℚ → ℚ → ℚ → ℚ → α) (g : Nat → Nat)
    (sitesOk restaurantsOk : List POI) (start : Nat) :
    ∀ (n i : Nat) (usedR usedA : Finset String) (j : Nat), j < n →
      (((planDays dist g sitesOk restaurantsOk start n i usedR usedA).1.getD j default).day
          = i + j + 1 ∧
        ((planDays dist g sitesOk restaurantsOk start n i usedR usedA).1.getD j default).date
          = start + i + j) := by
  intro n
  induction n with
  | zero => intro i uR uA j hj; exact absurd hj (Nat.not_lt_zero j)
  | succ n ih =>
    intro i uR uA j hj
    cases j with
    | zero => simp [planDays]
    | succ j =>
      simp only [planDays, List.getD_cons_succ]
      refine ⟨?_, ?_⟩
      · rw [(ih (i + 1) _ _ j (by omega)).1]
        omega
      · rw [(ih (i + 1) _ _ j (by omega)).2]
        omega

/-- C4: for every start date and every nb_days n ≥ 0, `plan_trip` returns
exactly n Day Plans, whose day fields are 1..n in order and whose date
fields advance by exactly one calendar day from the start date for each
successive Day Plan. -/
theorem C4_plan_trip_length_and_dates {α : Type} [LinearOrder α] (dist : ℚ → ℚ → ℚ → ℚ → α)
    (start n : Nat) (hotels restaurants sites : List POI) (hseed : Nat) (g : Nat → Nat) :
    ((plan_trip dist start n hotels restaurants sites hseed g).1).length = n ∧
    ∀ j : Nat, j < n →
      (((plan_trip dist start n hotels restaurants sites hseed g).1).getD j default).day
          = j + 1 ∧
        (((plan_trip dist start n hotels restaurants sites hseed g).1).getD j default).date
          = start + j := by
  simp only [plan_trip]
  refine ⟨planDays_length dist g _ _ start n 0 ∅ ∅, fun j hj => ?_⟩
  have h := planDays_getD dist g (sites.filter coordOk) (restaurants.filter coordOk)
    start n 0 ∅ ∅ j hj
  exact ⟨by rw [h.1]; omega, by rw [h.2]; omega⟩

/-- Witness for C4: a concrete two-day trip. -/
theorem C4_plan_trip_length_and_dates_witness :
    ((plan_trip (fun _ _ _ _ => (0 : ℚ)) 100 2 [] [] [] 0 (fun _ => 0)).1).length = 2 ∧
    (((plan_trip (fun _ _ _ _ => (0 : ℚ)) 100 2 [] [] [] 0 (fun _ => 0)).1).getD 1 default).day
        = 1 + 1 ∧
      (((plan_trip (fun _ _ _ _ => (0 : ℚ)) 100 2 [] [] [] 0 (fun _ => 0)).1).getD 1 default).date
        = 100 + 1 :=
  ⟨(C4_plan_trip_length_and_dates (fun _ _ _ _ => (0 : ℚ)) 100 2 [] [] [] 0 (fun _ => 0)).1,
    ((C4_plan_trip_length_and_dates (fun _ _ _ _ => (0 : ℚ)) 100 2 [] [] [] 0
      (fun _ => 0)).2 1 (by decide)).1,
    ((C4_plan_trip_length_and_dates (fun _ _ _ _ => (0 : ℚ)) 100 2 [] [] [] 0
      (fun _ => 0)).2 1 (by decide)).2⟩

/-- C5: whenever the filtered eligible list `available` has at most `k`
elements, `_pick_nearby` returns exactly `available` — in particular the
empty list when it is empty — with no element duplicated and no padding. -/
theorem C5_pick_nearby_graceful_exhaustion {α : Type} [LinearOrder α]
    (dist : ℚ → ℚ → ℚ → ℚ → α) (items : List POI) (k : Nat) (used : Finset String)
    (seed : Nat) (h : (items.filter (eligibleAct used)).length ≤ k) :
    pick_nearby dist items k used seed = items.filter (eligibleAct used) := by
  unfold pick_nearby
  by_cases h0 : items.filter (eligibleAct used) = []
  · simp [h0]
  · simp [h0, h]

/-- Witness for C5: a pool whose single eligible site is returned as-is for
k = 2. -/
theorem C5_pick_nearby_graceful_exhaustion_witness :
    pick_nearby (fun _ _ _ _ => (0 : ℚ)) [⟨"A", some 1, some 1⟩, ⟨"", some 1, some 1⟩] 2 ∅ 0
      = [⟨"A", some 1, some 1⟩] :=
  (C5_pick_nearby_graceful_exhaustion (fun _ _ _ _ => (0 : ℚ))
    [⟨"A", some 1, some 1⟩, ⟨"", some 1, some 1⟩] 2 ∅ 0 (by decide)).trans (by decide)

/-- A truthy coordinate is present. -/
theorem truthyCoord_ne_none {o : Option ℚ} (h : truthyCoord o = true) : o ≠ none := by
  cases o with
  | none => simp [truthyCoord] at h
  | some q => simp

/-- Unpacked form of the `_pick_nearby` eligibility filter. -/
theorem eligibleAct_spec {used : Finset String} {x : POI} (h : eligibleAct used x = true) :
    x.name ≠ "" ∧ x.name ∉ used ∧ truthyCoord x.latitude = true
      ∧ truthyCoord x.longitude = true := by
  simp only [eligibleAct, Bool.and_eq_true, decide_eq_true_eq, Bool.not_eq_true',
    decide_eq_false_iff_not] at h
  exact ⟨h.1.1.1, h.1.1.2, h.1.2, h.2⟩

/-- C2 as stated is false at `k = 0`: with one eligible candidate and
`k = 0` the selector enters the chain branch and returns one item,
exceeding `k`. -/
theorem C2_counterexample :
    ¬ ((pick_nearby (fun _ _ _ _ => (0 : ℚ)) [⟨"A", some 1, some 1⟩] 0 ∅ 0).length ≤ 0) := by
  decide

/-- C2 amended: for every `k`, every returned item passed the eligibility
filter — its name is outside the excluded set and non-empty, and both its
coordinates are truthy (hence present); the bound of at most `k` items
holds for every `k ≥ 1` (at `k = 0` with a non-empty eligible list the
selector returns one item instead). -/
theorem C2_pick_nearby_bounded_selection {α : Type} [LinearOrder α]
    (dist : ℚ → ℚ → ℚ → ℚ → α) (items : List POI) (k : Nat) (used : Finset String)
    (seed : Nat) :
    (∀ x ∈ pick_nearby dist items k used seed,
        x.name ∉ used ∧ x.name ≠ "" ∧ x.latitude ≠ none ∧ x.longitude ≠ none) ∧
    (1 ≤ k → (pick_nearby dist items k used seed).length ≤ k) := by
  constructor
  · intro x hx
    have h := eligibleAct_spec (mem_pick_nearby_eligible dist items k used seed x hx).2
    exact ⟨h.2.1, h.1, truthyCoord_ne_none h.2.2.1, truthyCoord_ne_none h.2.2.2⟩
  · intro hk
    exact pick_nearby_length_le dist items k used seed hk

/-- Witness for C2 amended: a concrete pool of three eligible sites with
k = 2. -/
theorem C2_pick_nearby_bounded_selection_witness :
    ((pick_nearby (fun _ _ _ _ => (0 : ℚ))
        [⟨"A", some 1, some 1⟩, ⟨"B", some 50, some 50⟩, ⟨"C", some 2, some 2⟩] 2 ∅ 0).length
      ≤ 2) ∧
    ("A" ∉ (∅ : Finset String) ∧ "A" ≠ "" ∧ (some (1 : ℚ) : Option ℚ) ≠ none
      ∧ (some (1 : ℚ) : Option ℚ) ≠ none) :=
  ⟨(C2_pick_nearby_bounded_selection (fun _ _ _ _ => (0 : ℚ))
      [⟨"A", some 1, some 1⟩, ⟨"B", some 50, some 50⟩, ⟨"C", some 2, some 2⟩] 2 ∅ 0).2
    (by decide),
   (C2_pick_nearby_bounded_selection (fun _ _ _ _ => (0 : ℚ))
      [⟨"A", some 1, some 1⟩, ⟨"B", some 50, some 50⟩, ⟨"C", some 2, some 2⟩] 2 ∅ 0).1
    ⟨"A", some 1, some 1⟩ (by decide)⟩

/-- A successful hotel pick comes from the pool and has truthy
coordinates (the hotel filter never looks at the name). -/
theorem pick_unique_hotel_some_mem {hotels : List POI} {seed : Nat} {x : POI}
    (h : pick_unique_hotel hotels seed = some x) :
    x ∈ hotels ∧ coordOk x = true := by
  unfold pick_unique_hotel at h
  set ok := hotels.filter coordOk with hok
  by_cases h0 : ok = []
  · simp [h0] at h
  · simp only [h0, if_false, Option.some_inj] at h
    have hlen : seed % ok.length < ok.length := Nat.mod_lt _ (List.length_pos.mpr h0)
    have hmem : x ∈ ok := h ▸ getD_mem_of_lt hlen
    rw [hok] at hmem
    exact ⟨(List.mem_filter.mp hmem).1, (List.mem_filter.mp hmem).2⟩

/-- C10 as stated is false: a hotel record with an empty name but truthy
coordinates is returned by `pick_unique_hotel` — the hotel filter (and the
`plan_trip` pool pre-filters) test coordinates only, not the name. -/
theorem C10_counterexample :
    pick_unique_hotel [⟨"", some 1, some 1⟩] 0 = some ⟨"", some 1, some 1⟩ := by
  decide

/-- C10 amended: the filters test coordinate truthiness, not presence, so
a POI whose latitude or longitude is absent or exactly 0 is ineligible
everywhere — never returned by `_pick_nearby` or `pick_unique_hotel` and
excluded from the pre-filtered pools; a POI whose name is the empty string
is never returned by `_pick_nearby` or `_pick_one`, but the hotel selector
and the `plan_trip` pool pre-filters do not test the name. -/
theorem C10_truthiness_eligibility {α : Type} [LinearOrder α]
    (dist : ℚ → ℚ → ℚ → ℚ → α) :
    (∀ (items : List POI) (k : Nat) (used : Finset String) (seed : Nat) (x : POI),
        x ∈ pick_nearby dist items k used seed →
        x.name ≠ "" ∧ truthyCoord x.latitude = true ∧ truthyCoord x.longitude = true) ∧
    (∀ (hotels : List POI) (seed : Nat) (x : POI), pick_unique_hotel hotels seed = some x →
        truthyCoord x.latitude = true ∧ truthyCoord x.longitude = true) ∧
    (∀ (items : List POI) (used : Finset String) (seed : Nat) (x : POI),
        pick_one items used seed = some x → x.name ≠ "") ∧
    (∀ x : POI,
        x.latitude = some 0 ∨ x.latitude = none ∨ x.longitude = some 0 ∨ x.longitude = none →
        coordOk x = false) := by
  refine ⟨?_, ?_, ?_, ?_⟩
  · intro items k used seed x hx
    have h := eligibleAct_spec (mem_pick_nearby_eligible dist items k used seed x hx).2
    exact ⟨h.1, h.2.2.1, h.2.2.2⟩
  · intro hotels seed x hx
    have h := (pick_unique_hotel_some_mem hx).2
    simp only [coordOk, Bool.and_eq_true] at h
    exact h
  · intro items used seed x hx
    exact (pick_one_some_mem hx).2.1
  · intro x hx
    rcases hx with h | h | h | h <;>
      simp [coordOk, h, truthyCoord]

/-- Witness for C10 amended: a site with zero latitude fails the
coordinate filter, and a concrete hotel pick has truthy coordinates. -/
theorem C10_truthiness_eligibility_witness :
    coordOk ⟨"X", some 0, some 1⟩ = false ∧
    (truthyCoord (some (5 : ℚ)) = true ∧ truthyCoord (some (6 : ℚ)) = true) :=
  ⟨((C10_truthiness_eligibility (fun _ _ _ _ => (0 : ℚ))).2.2.2 ⟨"X", some 0, some 1⟩
      (Or.inl rfl)),
   ((C10_truthiness_eligibility (fun _ _ _ _ => (0 : ℚ))).2.1 [⟨"H", some 5, some 6⟩] 0
      ⟨"H", some 5, some 6⟩ (by decide))⟩

/-- C8: `_pick_one` returns `none` exactly when no candidate has a
non-empty name outside the excluded set (coordinates are not consulted);
with a pool of one named restaurant and a shared usage set, a second call
after recording the first pick's name returns `none`. -/
theorem C8_pick_one_none_iff_exhausted (items : List POI) (used : Finset String) (seed : Nat) :
    (pick_one items used seed = none ↔ ∀ x ∈ items, x.name = "" ∨ x.name ∈ used) ∧
    (∀ (r : POI) (s1 s2 : Nat), r.name ≠ "" → r.name ∉ used →
      pick_one [r] used s1 = some r ∧ pick_one [r] (insert r.name used) s2 = none) := by
  constructor
  · rw [pick_one_eq_none_iff]
    rw [List.filter_eq_nil_iff]
    constructor
    · intro h x hx
      have := h x hx
      simp only [Bool.and_eq_true, decide_eq_true_eq, Bool.not_eq_true',
        decide_eq_false_iff_not, not_and] at this
      by_cases he : x.name = ""
      · exact Or.inl he
      · exact Or.inr (of_not_not (this he))
    · intro h x hx
      have := h x hx
      simp only [Bool.and_eq_true, decide_eq_true_eq, Bool.not_eq_true',
        decide_eq_false_iff_not, not_and]
      intro hne
      rcases this with he | hm
      · exact absurd he hne
      · exact not_not_intro hm
  · intro r s1 s2 hne hnu
    constructor
    · unfold pick_one
      have hf : [r].filter (fun x => decide (x.name ≠ "") && !decide (x.name ∈ used)) = [r] := by
        simp [List.filter, hne, hnu]
      rw [hf]
      simp [Nat.mod_one]
    · unfold pick_one
      have hf : [r].filter
          (fun x => decide (x.name ≠ "") && !decide (x.name ∈ insert r.name used)) = [] := by
        simp [List.filter]
      rw [hf]
      simp

/-- Witness for C8: a single restaurant without coordinates is picked on
the first call and exhausted on the second. -/
theorem C8_pick_one_none_iff_exhausted_witness :
    pick_one [⟨"R", none, none⟩] ∅ 0 = some ⟨"R", none, none⟩ ∧
    pick_one [⟨"R", none, none⟩] (insert "R" ∅) 1 = none :=
  (C8_pick_one_none_iff_exhausted [⟨"R", none, none⟩] ∅ 0).2 ⟨"R", none, none⟩ 0 1
    (by decide) (by decide)

/-- The state-passing chain loop computes the same result list as the pure
one. -/
theorem chainLoopEff_fst {α : Type} [LinearOrder α] (dist : ℚ → ℚ → ℚ → ℚ → α) :
    ∀ (n : Nat) (ref : POI) (l : List POI),
      (chainLoopEff dist n ref l).1 = chainLoop dist n ref l := by
  intro n
  induction n with
  | zero => intro ref l; simp only [chainLoopEff, chainLoop]
  | succ n ih =>
    intro ref l
    match l with
    | [] => simp only [chainLoopEff, chainLoop]
    | x :: xs =>
      cases hs : (x :: xs).insertionSort (keyLe dist ref) with
      | nil =>
        simp only [chainLoopEff, chainLoop]
        rw [hs]
      | cons b rest =>
        simp only [chainLoopEff, chainLoop]
        rw [hs]
        simp only [List.cons.injEq, true_and]
        exact ih b rest

/-- C7: `_pick_nearby` mutates neither its `items` argument nor its `used`
argument — the state-passing embedding (in which the comprehension-fresh
`remaining` binding absorbs the in-place sort and pop) returns the
caller's `items` and `used` unchanged alongside the pure result. -/
theorem C7_pick_nearby_no_mutation {α : Type} [LinearOrder α]
    (dist : ℚ → ℚ → ℚ → ℚ → α) (items : List POI) (k : Nat) (used : Finset String)
    (seed : Nat) :
    pick_nearby_eff dist items k used seed
      = (pick_nearby dist items k used seed, items, used) := by
  unfold pick_nearby_eff pick_nearby
  by_cases h0 : items.filter (eligibleAct used) = []
  · simp [h0]
  · by_cases hk : (items.filter (eligibleAct used)).length ≤ k
    · simp [h0, hk]
    · simp [h0, hk, chainLoopEff_fst]

/-- C9: the haversine distance is symmetric in its two points, and the
distance from a point to itself is zero. -/
theorem C9_haversine_symm_and_self_zero :
    (∀ lat1 lon1 lat2 lon2 : ℝ,
        haversine lat1 lon1 lat2 lon2 = haversine lat2 lon2 lat1 lon1) ∧
    (∀ lat lon : ℝ, haversine lat lon lat lon = 0) := by
  constructor
  · intro a b c d
    have h1 : Real.sin ((c - a) * (Real.pi / 180) / 2) ^ 2
        = Real.sin ((a - c) * (Real.pi / 180) / 2) ^ 2 := by
      have hn : (c - a) * (Real.pi / 180) / 2 = -((a - c) * (Real.pi / 180) / 2) := by ring
      rw [hn, Real.sin_neg]
      ring
    have h2 : Real.sin ((d - b) * (Real.pi / 180) / 2) ^ 2
        = Real.sin ((b - d) * (Real.pi / 180) / 2) ^ 2 := by
      have hn : (d - b) * (Real.pi / 180) / 2 = -((b - d) * (Real.pi / 180) / 2) := by ring
      rw [hn, Real.sin_neg]
      ring
    have hA : Real.sin ((c - a) * (Real.pi / 180) / 2) ^ 2
          + Real.cos (a * (Real.pi / 180)) * Real.cos (c * (Real.pi / 180))
            * Real.sin ((d - b) * (Real.pi / 180) / 2) ^ 2
        = Real.sin ((a - c) * (Real.pi / 180) / 2) ^ 2
          + Real.cos (c * (Real.pi / 180)) * Real.cos (a * (Real.pi / 180))
            * Real.sin ((b - d) * (Real.pi / 180) / 2) ^ 2 := by
      rw [h1, h2]
      ring
    simp only [haversine, radians]
    rw [hA]
  · intro lat lon
    simp only [haversine, radians]
    have h0 : (lat - lat) * (Real.pi / 180) / 2 = 0 := by ring
    have h1 : (lon - lon) * (Real.pi / 180) / 2 = 0 := by ring
    rw [h0, h1]
    norm_num [Real.sin_zero, Real.sqrt_zero, Real.sqrt_one, atan2, Real.arctan_zero]

/-- In the clustering branch (more eligible candidates than requested),
`_pick_nearby` is the random seed followed by the greedy chain over the
rest of the eligible list. -/
theorem pick_nearby_chain_eq {α : Type} [LinearOrder α] (dist : ℚ → ℚ → ℚ → ℚ → α)
    (items : List POI) (k : Nat) (used : Finset String) (seed : Nat)
    (h0 : items.filter (eligibleAct used) ≠ [])
    (hk : ¬ (items.filter (eligibleAct used)).length ≤ k) :
    pick_nearby dist items k used seed =
      (items.filter (eligibleAct used)).getD
          (seed % (items.filter (eligibleAct used)).length) default
        :: chainLoop dist (k - 1)
          ((items.filter (eligibleAct used)).getD
            (seed % (items.filter (eligibleAct used)).length) default)
          ((items.filter (eligibleAct used)).eraseIdx
            (seed % (items.filter (eligibleAct used)).length)) := by
  unfold pick_nearby
  simp only [h0, hk, if_false]

/-- C6: in the clustering branch the result is a greedy nearest-neighbour
chain — every loop iteration prepends-to-date the minimum-distance
candidate from the most recently added item among the remaining
candidates, removing it from the pool (first conjunct); in particular with
more than two eligible candidates and `k = 2` the result is the seed
followed by a nearest (or tied-nearest) remaining candidate, in selection
order (second conjunct). -/
theorem C6_pick_nearby_greedy_chain {α : Type} [LinearOrder α]
    (dist : ℚ → ℚ → ℚ → ℚ → α) :
    (∀ (n : Nat) (ref x : POI) (xs : List POI), ∃ b rest,
        chainLoop dist (n + 1) ref (x :: xs) = b :: chainLoop dist n b rest ∧
        b ∈ x :: xs ∧
        (∀ c ∈ x :: xs,
          dist ref.lat ref.lon b.lat b.lon ≤ dist ref.lat ref.lon c.lat c.lon) ∧
        List.Perm (b :: rest) (x :: xs)) ∧
    (∀ (items : List POI) (used : Finset String) (seed : Nat),
        2 < (items.filter (eligibleAct used)).length →
        ∃ first second,
          pick_nearby dist items 2 used seed = [first, second] ∧
          first ∈ items.filter (eligibleAct used) ∧
          second ∈ (items.filter (eligibleAct used)).eraseIdx
            (seed % (items.filter (eligibleAct used)).length) ∧
          ∀ c ∈ (items.filter (eligibleAct used)).eraseIdx
              (seed % (items.filter (eligibleAct used)).length),
            dist first.lat first.lon second.lat second.lon
              ≤ dist first.lat first.lon c.lat c.lon) := by
  have step : ∀ (n : Nat) (ref x : POI) (xs : List POI), ∃ b rest,
      chainLoop dist (n + 1) ref (x :: xs) = b :: chainLoop dist n b rest ∧
      b ∈ x :: xs ∧
      (∀ c ∈ x :: xs,
        dist ref.lat ref.lon b.lat b.lon ≤ dist ref.lat ref.lon c.lat c.lon) ∧
      List.Perm (b :: rest) (x :: xs) := by
    intro n ref x xs
    have hperm := List.perm_insertionSort (keyLe dist ref) (x :: xs)
    cases hs : (x :: xs).insertionSort (keyLe dist ref) with
    | nil =>
      rw [hs] at hperm
      exact absurd hperm.symm.eq_nil (List.cons_ne_nil x xs)
    | cons b rest =>
      rw [hs] at hperm
      have hsorted := List.sorted_insertionSort (keyLe dist ref) (x :: xs)
      rw [hs] at hsorted
      refine ⟨b, rest, ?_, ?_, ?_, hperm⟩
      · simp only [chainLoop]
        rw [hs]
      · exact hperm.mem_iff.mp (List.mem_cons_self b rest)
      · intro c hc
        rcases List.mem_cons.mp (hperm.mem_iff.mpr hc) with hcb | hcr
        · rw [hcb]
        · exact (List.sorted_cons.mp hsorted).1 c hcr
  refine ⟨step, ?_⟩
  intro items used seed h3
  have h0 : items.filter (eligibleAct used) ≠ [] := by
    intro h
    rw [h] at h3
    simp at h3
  have hnk : ¬ (items.filter (eligibleAct used)).length ≤ 2 := by omega
  have hi : seed % (items.filter (eligibleAct used)).length
      < (items.filter (eligibleAct used)).length :=
    Nat.mod_lt _ (by omega)
  have hlen := List.length_eraseIdx_add_one (l := items.filter (eligibleAct used)) hi
  cases herase : (items.filter (eligibleAct used)).eraseIdx
      (seed % (items.filter (eligibleAct used)).length) with
  | nil =>
    rw [herase] at hlen
    simp at hlen
    omega
  | cons y ys =>
    obtain ⟨b, rest, heq, hb, hmin, hbr⟩ := step 0
      ((items.filter (eligibleAct used)).getD
        (seed % (items.filter (eligibleAct used)).length) default) y ys
    refine ⟨(items.filter (eligibleAct used)).getD
        (seed % (items.filter (eligibleAct used)).length) default, b, ?_, ?_, ?_, ?_⟩
    · rw [pick_nearby_chain_eq dist items 2 used seed h0 hnk, herase]
      rw [show (2 : Nat) - 1 = 0 + 1 from rfl, heq]
      simp only [chainLoop]
    · exact getD_mem_of_lt hi
    · exact hb
    · intro c hc
      exact hmin c hc

/-- Witness for C6: three sites, squared-difference distance; the selector
returns the seed site and its nearest remaining neighbour. -/
theorem C6_pick_nearby_greedy_chain_witness :
    2 < ([(⟨"A", some 1, some 1⟩ : POI), ⟨"B", some 10, some 10⟩,
          ⟨"C", some 2, some 2⟩].filter (eligibleAct ∅)).length ∧
    ∃ first second,
      pick_nearby (fun a b c d => (a - c) ^ 2 + (b - d) ^ 2)
          [⟨"A", some 1, some 1⟩, ⟨"B", some 10, some 10⟩, ⟨"C", some 2, some 2⟩] 2 ∅ 0
        = [first, second] ∧
      first ∈ [(⟨"A", some 1, some 1⟩ : POI), ⟨"B", some 10, some 10⟩,
          ⟨"C", some 2, some 2⟩].filter (eligibleAct ∅) ∧
      second ∈ ([(⟨"A", some 1, some 1⟩ : POI), ⟨"B", some 10, some 10⟩,
          ⟨"C", some 2, some 2⟩].filter (eligibleAct ∅)).eraseIdx
        (0 % ([(⟨"A", some 1, some 1⟩ : POI), ⟨"B", some 10, some 10⟩,
          ⟨"C", some 2, some 2⟩].filter (eligibleAct ∅)).length) ∧
      ∀ c ∈ ([(⟨"A", some 1, some 1⟩ : POI), ⟨"B", some 10, some 10⟩,
          ⟨"C", some 2, some 2⟩].filter (eligibleAct ∅)).eraseIdx
        (0 % ([(⟨"A", some 1, some 1⟩ : POI), ⟨"B", some 10, some 10⟩,
          ⟨"C", some 2, some 2⟩].filter (eligibleAct ∅)).length),
        (first.lat - second.lat) ^ 2 + (first.lon - second.lon) ^ 2
          ≤ (first.lat - c.lat) ^ 2 + (first.lon - c.lon) ^ 2 :=
  ⟨by decide,
    (C6_pick_nearby_greedy_chain (fun a b c d => (a - c) ^ 2 + (b - d) ^ 2)).2
      [⟨"A", some 1, some 1⟩, ⟨"B", some 10, some 10⟩, ⟨"C", some 2, some 2⟩] ∅ 0
      (by decide)⟩

/-- Unfolding `addNames` on a cons cell. -/
theorem addNames_cons (used : Finset String) (a : POI) (t : List POI) :
    addNames used (a :: t) = addNames (insert a.name used) t := rfl

/-- Unfolding `addNames` on the empty list. -/
theorem addNames_nil (used : Finset String) : addNames used [] = used := rfl

/-- Membership after recording a list of picked names. -/
theorem mem_addNames (s : String) : ∀ (l : List POI) (used : Finset String),
    s ∈ addNames used l ↔ s ∈ used ∨ s ∈ l.map POI.name := by
  intro l
  induction l with
  | nil => intro used; simp [addNames_nil]
  | cons a t ih =>
    intro used
    rw [addNames_cons, ih]
    simp only [Finset.mem_insert, List.map_cons, List.mem_cons]
    tauto

/-- Recording names only grows the usage set. -/
theorem subset_addNames {s : String} {used : Finset String} (l : List POI) (h : s ∈ used) :
    s ∈ addNames used l :=
  (mem_addNames s l used).mpr (Or.inl h)

/-- Membership after recording an optional picked name. -/
theorem mem_addOptName (s : String) (used : Finset String) :
    ∀ o : Option POI, s ∈ addOptName used o ↔ s ∈ used ∨ ∃ x, o = some x ∧ s = x.name := by
  intro o
  cases o with
  | none => simp [addOptName]
  | some b =>
    simp only [addOptName, Finset.mem_insert, Option.some_inj]
    constructor
    · rintro (h | h)
      · exact Or.inr ⟨b, rfl, h⟩
      · exact Or.inl h
    · rintro (h | ⟨x, hx, hs⟩)
      · exact Or.inr h
      · exact Or.inl (by rw [hs, hx])

/-- Recording an optional name only grows the usage set. -/
theorem subset_addOptName {s : String} {used : Finset String} (o : Option POI)
    (h : s ∈ used) : s ∈ addOptName used o :=
  (mem_addOptName s used o).mpr (Or.inl h)

/-- If the pool's names are pairwise distinct, so are the names returned by
`_pick_nearby`. -/
theorem pick_nearby_names_nodup {α : Type} [LinearOrder α] (dist : ℚ → ℚ → ℚ → ℚ → α)
    (items : List POI) (k : Nat) (used : Finset String) (seed : Nat)
    (h : (items.map POI.name).Nodup) :
    ((pick_nearby dist items k used seed).map POI.name).Nodup := by
  have h1 := pick_nearby_subperm dist items k used seed
  have h2 := subperm_map POI.name h1
  have h3 : List.Sublist ((items.filter (eligibleAct used)).map POI.name)
      (items.map POI.name) :=
    (List.filter_sublist items).map POI.name
  exact subperm_nodup (h2.trans h3.subperm) h

/-- Names returned by `_pick_nearby` were not in the exclusion set. -/
theorem pick_nearby_names_not_used {α : Type} [LinearOrder α] (dist : ℚ → ℚ → ℚ → ℚ → α)
    (items : List POI) (k : Nat) (used : Finset String) (seed : Nat) :
    ∀ s ∈ (pick_nearby dist items k used seed).map POI.name, s ∉ used := by
  intro s hs
  obtain ⟨x, hx, rfl⟩ := List.mem_map.mp hs
  exact (eligibleAct_spec (mem_pick_nearby_eligible dist items k used seed x hx).2).2.1

/-- Unfolding `planActivityNames` on a cons cell. -/
theorem planActivityNames_cons (d : DayPlan) (rest : List DayPlan) :
    planActivityNames (d :: rest)
      = (d.morning_activities.map POI.name ++ d.afternoon_activities.map POI.name)
        ++ planActivityNames rest := rfl

/-- Unfolding `planDiningNames` on a cons cell. -/
theorem planDiningNames_cons (d : DayPlan) (rest : List DayPlan) :
    planDiningNames (d :: rest)
      = ((d.breakfast.map POI.name).toList ++ (d.lunch.map POI.name).toList
          ++ (d.dinner.map POI.name).toList)
        ++ planDiningNames rest := rfl

/-- One day's dining picks: the slot names are pairwise distinct, none was
in the usage set before the day, and all are recorded afterwards. -/
theorem dining_day_names (uR : Finset String) (b l d : Option POI)
    (hb : ∀ x, b = some x → x.name ∉ uR)
    (hl : ∀ x, l = some x → x.name ∉ addOptName uR b)
    (hd : ∀ x, d = some x → x.name ∉ addOptName (addOptName uR b) l) :
    ((b.map POI.name).toList ++ (l.map POI.name).toList ++ (d.map POI.name).toList).Nodup ∧
    (∀ s ∈ (b.map POI.name).toList ++ (l.map POI.name).toList ++ (d.map POI.name).toList,
        s ∉ uR) ∧
    (∀ s ∈ (b.map POI.name).toList ++ (l.map POI.name).toList ++ (d.map POI.name).toList,
        s ∈ addOptName (addOptName (addOptName uR b) l) d) := by
  refine ⟨?_, ?_, ?_⟩ <;>
    rcases b with _ | xb <;> rcases l with _ | xl <;> rcases d with _ | xd <;>
      simp_all [addOptName, Finset.mem_insert] <;> tauto

/-- Across the whole day loop, dining-slot names are pairwise distinct and
disjoint from the incoming restaurant usage set. -/
theorem planDays_dining_names {α : Type} [LinearOrder α] (dist : ℚ → ℚ → ℚ → ℚ → α)
    (g : Nat → Nat) (sitesOk restaurantsOk : List POI) (start : Nat) :
    ∀ (n i : Nat) (usedR usedA : Finset String),
      (planDiningNames (planDays dist g sitesOk restaurantsOk start n i usedR usedA).1).Nodup ∧
      ∀ s ∈ planDiningNames (planDays dist g sitesOk restaurantsOk start n i usedR usedA).1,
        s ∉ usedR := by
  intro n
  induction n with
  | zero => intro i uR uA; simp [planDays, planDiningNames]
  | succ n ih =>
    intro i uR uA
    simp only [planDays, planDiningNames_cons]
    set morning := pick_nearby dist sitesOk 2 uA (g (5 * i)) with hmor
    set uA1 := addNames uA morning with huA1
    set afternoon := pick_nearby dist sitesOk 2 uA1 (g (5 * i + 1)) with haft
    set uA2 := addNames uA1 afternoon with huA2
    set b := pick_one restaurantsOk uR (g (5 * i + 2)) with hbk
    set uR1 := addOptName uR b with huR1
    set l := pick_one restaurantsOk uR1 (g (5 * i + 3)) with hlu
    set uR2 := addOptName uR1 l with huR2
    set d := pick_one restaurantsOk uR2 (g (5 * i + 4)) with hdi
    set uR3 := addOptName uR2 d with huR3
    have hday := dining_day_names uR b l d
      (fun x hx => (pick_one_some_mem (hbk.symm.trans hx)).2.2)
      (fun x hx => (pick_one_some_mem (hlu.symm.trans hx)).2.2)
      (fun x hx => (pick_one_some_mem (hdi.symm.trans hx)).2.2)
    have hrest := ih (i + 1) uR3 uA2
    constructor
    · rw [List.nodup_append]
      refine ⟨hday.1, hrest.1, ?_⟩
      intro s hs1 hs2
      exact hrest.2 s hs2 (hday.2.2 s hs1)
    · intro s hs
      rcases List.mem_append.mp hs with hs1 | hs2
      · exact hday.2.1 s hs1
      · intro hsu
        exact hrest.2 s hs2
          (subset_addOptName d (subset_addOptName l (subset_addOptName b hsu)))

/-- Across the whole day loop with a duplicate-free site-name pool,
activity-slot names are pairwise distinct and disjoint from the incoming
activity usage set. -/
theorem planDays_activity_names {α : Type} [LinearOrder α] (dist : ℚ → ℚ → ℚ → ℚ → α)
    (g : Nat → Nat) (sitesOk restaurantsOk : List POI) (start : Nat)
    (hsN : (sitesOk.map POI.name).Nodup) :
    ∀ (n i : Nat) (usedR usedA : Finset String),
      (planActivityNames
        (planDays dist g sitesOk restaurantsOk start n i usedR usedA).1).Nodup ∧
      ∀ s ∈ planActivityNames (planDays dist g sitesOk restaurantsOk start n i usedR usedA).1,
        s ∉ usedA := by
  intro n
  induction n with
  | zero => intro i uR uA; simp [planDays, planActivityNames]
  | succ n ih =>
    intro i uR uA
    simp only [planDays, planActivityNames_cons]
    set morning := pick_nearby dist sitesOk 2 uA (g (5 * i)) with hmor
    set uA1 := addNames uA morning with huA1
    set afternoon := pick_nearby dist sitesOk 2 uA1 (g (5 * i + 1)) with haft
    set uA2 := addNames uA1 afternoon with huA2
    set b := pick_one restaurantsOk uR (g (5 * i + 2)) with hbk
    set uR1 := addOptName uR b with huR1
    set l := pick_one restaurantsOk uR1 (g (5 * i + 3)) with hlu
    set uR2 := addOptName uR1 l with huR2
    set d := pick_one restaurantsOk uR2 (g (5 * i + 4)) with hdi
    set uR3 := addOptName uR2 d with huR3
    have hmN : (morning.map POI.name).Nodup := by
      rw [hmor]; exact pick_nearby_names_nodup dist sitesOk 2 uA (g (5 * i)) hsN
    have haN : (afternoon.map POI.name).Nodup := by
      rw [haft]; exact pick_nearby_names_nodup dist sitesOk 2 uA1 (g (5 * i + 1)) hsN
    have hmU : ∀ s ∈ morning.map POI.name, s ∉ uA := by
      rw [hmor]; exact pick_nearby_names_not_used dist sitesOk 2 uA (g (5 * i))
    have haU : ∀ s ∈ afternoon.map POI.name, s ∉ uA1 := by
      rw [haft]; exact pick_nearby_names_not_used dist sitesOk 2 uA1 (g (5 * i + 1))
    have hmIn1 : ∀ s ∈ morning.map POI.name, s ∈ uA1 := by
      intro s hs
      rw [huA1]
      exact (mem_addNames s morning uA).mpr (Or.inr hs)
    have haIn2 : ∀ s ∈ afternoon.map POI.name, s ∈ uA2 := by
      intro s hs
      rw [huA2]
      exact (mem_addNames s afternoon uA1).mpr (Or.inr hs)
    have hmIn2 : ∀ s ∈ morning.map POI.name, s ∈ uA2 := by
      intro s hs
      rw [huA2]
      exact subset_addNames afternoon (hmIn1 s hs)
    have hrest := ih (i + 1) uR3 uA2
    constructor
    · rw [List.nodup_append]
      refine ⟨?_, hrest.1, ?_⟩
      · rw [List.nodup_append]
        refine ⟨hmN, haN, ?_⟩
        intro s hs1 hs2
        exact haU s hs2 (hmIn1 s hs1)
      · intro s hs1 hs2
        rcases List.mem_append.mp hs1 with hm | ha
        · exact hrest.2 s hs2 (hmIn2 s hm)
        · exact hrest.2 s hs2 (haIn2 s ha)
    · intro s hs
      rcases List.mem_append.mp hs with hs1 | hs2
      · rcases List.mem_append.mp hs1 with hm | ha
        · exact hmU s hm
        · intro hsu
          exact haU s ha (by rw [huA1]; exact subset_addNames morning hsu)
      · intro hsu
        exact hrest.2 s hs2
          (by rw [huA2, huA1]
              exact subset_addNames afternoon (subset_addNames morning hsu))

/-- C1 as stated is false when the site pool repeats a name: a one-day
trip over two same-named sites returns both in the morning slot, so the
name appears twice among the plan's activity slots. -/
theorem C1_counterexample :
    ¬ (planActivityNames (plan_trip (fun _ _ _ _ => (0 : ℚ)) 0 1 [] []
        [⟨"A", some 1, some 1⟩, ⟨"A", some 2, some 2⟩] 0 (fun _ => 0)).1).Nodup := by
  decide

/-- C1 amended: provided the site pool's names are pairwise distinct, no
POI name appears more than once across the morning/afternoon activity
slots of the whole Trip Plan; no restaurant name ever appears more than
once across the breakfast/lunch/dinner slots (the dining side needs no
distinctness hypothesis because each slot holds at most one pick whose
name is recorded before the next call). -/
theorem C1_plan_trip_unique_names {α : Type} [LinearOrder α] (dist : ℚ → ℚ → ℚ → ℚ → α)
    (start n : Nat) (hotels restaurants sites : List POI) (hseed : Nat) (g : Nat → Nat)
    (hsites : (sites.map POI.name).Nodup) :
    (planActivityNames (plan_trip dist start n hotels restaurants sites hseed g).1).Nodup ∧
    (planDiningNames (plan_trip dist start n hotels restaurants sites hseed g).1).Nodup := by
  simp only [plan_trip]
  have hsOkN : ((sites.filter coordOk).map POI.name).Nodup :=
    hsites.sublist ((List.filter_sublist sites).map POI.name)
  exact ⟨(planDays_activity_names dist g (sites.filter coordOk)
      (restaurants.filter coordOk) start hsOkN n 0 ∅ ∅).1,
    (planDays_dining_names dist g (sites.filter coordOk)
      (restaurants.filter coordOk) start n 0 ∅ ∅).1⟩

/-- Witness for C1 amended: a concrete one-day trip over two distinct
sites and two restaurants. -/
theorem C1_plan_trip_unique_names_witness :
    (([(⟨"A", some 1, some 1⟩ : POI), ⟨"B", some 2, some 2⟩].map POI.name).Nodup) ∧
    (planActivityNames (plan_trip (fun _ _ _ _ => (0 : ℚ)) 5 1 []
        [⟨"R1", some 1, some 1⟩, ⟨"R2", some 2, some 2⟩]
        [⟨"A", some 1, some 1⟩, ⟨"B", some 2, some 2⟩] 0 (fun _ => 0)).1).Nodup ∧
    (planDiningNames (plan_trip (fun _ _ _ _ => (0 : ℚ)) 5 1 []
        [⟨"R1", some 1, some 1⟩, ⟨"R2", some 2, some 2⟩]
        [⟨"A", some 1, some 1⟩, ⟨"B", some 2, some 2⟩] 0 (fun _ => 0)).1).Nodup :=
  ⟨by decide,
    (C1_plan_trip_unique_names (fun _ _ _ _ => (0 : ℚ)) 5 1 []
      [⟨"R1", some 1, some 1⟩, ⟨"R2", some 2, some 2⟩]
      [⟨"A", some 1, some 1⟩, ⟨"B", some 2, some 2⟩] 0 (fun _ => 0) (by decide)).1,
    (C1_plan_trip_unique_names (fun _ _ _ _ => (0 : ℚ)) 5 1 []
      [⟨"R1", some 1, some 1⟩, ⟨"R2", some 2, some 2⟩]
      [⟨"A", some 1, some 1⟩, ⟨"B", some 2, some 2⟩] 0 (fun _ => 0) (by decide)).2⟩

/-- A truthy value on which the numeric reading cannot raise is a number. -/
theorem truthy_numOrFalsy_vnum {v : PyVal} (ht : v.truthy = true)
    (hs : v.numOrFalsy = true) : ∃ q : ℚ, v = .vnum q := by
  cases v with
  | vnone => simp [PyVal.truthy] at ht
  | vnum q => exact ⟨q, rfl⟩
  | vstr s =>
    simp only [PyVal.truthy, decide_eq_true_eq] at ht
    simp only [PyVal.numOrFalsy, decide_eq_true_eq] at hs
    exact absurd hs ht

/-- The dynamic sort key succeeds on numeric coordinates. -/
theorem dynKey_ok {α : Type} (dist : ℚ → ℚ → ℚ → ℚ → α) {ref x : DPOI}
    (h1 : ∃ qa, ref.latitude = .vnum qa) (h2 : ∃ qb, ref.longitude = .vnum qb)
    (h3 : ∃ qc, x.latitude = .vnum qc) (h4 : ∃ qd, x.longitude = .vnum qd) :
    ∃ q, dynKey dist ref x = .ok q := by
  obtain ⟨qa, ha⟩ := h1
  obtain ⟨qb, hb⟩ := h2
  obtain ⟨qc, hc⟩ := h3
  obtain ⟨qd, hd⟩ := h4
  exact ⟨dist qa qb qc qd, by simp [dynKey, ha, hb, hc, hd]⟩

/-- The key-computation pass succeeds when the reference and every
candidate have numeric coordinates, and it keys the candidates in order. -/
theorem dynKeys_ok {α : Type} (dist : ℚ → ℚ → ℚ → ℚ → α) (ref : DPOI)
    (h1 : ∃ qa, ref.latitude = .vnum qa) (h2 : ∃ qb, ref.longitude = .vnum qb) :
    ∀ l : List DPOI,
      (∀ x ∈ l, (∃ qc, x.latitude = PyVal.vnum qc) ∧ (∃ qd, x.longitude = PyVal.vnum qd)) →
      ∃ keyed, dynKeys dist ref l = .ok keyed ∧ keyed.map Prod.snd = l := by
  intro l
  induction l with
  | nil => intro _; exact ⟨[], rfl, rfl⟩
  | cons x xs ih =>
    intro h
    obtain ⟨q, hq⟩ := dynKey_ok dist h1 h2 (h x (List.mem_cons_self x xs)).1
      (h x (List.mem_cons_self x xs)).2
    obtain ⟨ks, hks, hmap⟩ := ih (fun y hy => h y (List.mem_cons_of_mem x hy))
    refine ⟨(q, x) :: ks, ?_, by simp [hmap]⟩
    simp only [dynKeys]
    rw [hq, hks]

/-- The dynamic sort succeeds on numeric coordinates and permutes the
candidate list. -/
theorem dynSort_ok {α : Type} [LinearOrder α] (dist : ℚ → ℚ → ℚ → ℚ → α) (ref : DPOI)
    (l : List DPOI)
    (h1 : ∃ qa, ref.latitude = .vnum qa) (h2 : ∃ qb, ref.longitude = .vnum qb)
    (hl : ∀ x ∈ l, (∃ qc, x.latitude = PyVal.vnum qc) ∧ (∃ qd, x.longitude = PyVal.vnum qd)) :
    ∃ out, dynSort dist ref l = .ok out ∧ List.Perm out l := by
  obtain ⟨keyed, hk, hmap⟩ := dynKeys_ok dist ref h1 h2 l hl
  refine ⟨(keyed.insertionSort (fun p q => p.1 ≤ q.1)).map Prod.snd, ?_, ?_⟩
  · simp only [dynSort]
    rw [hk]
  · have hperm := List.perm_insertionSort (fun p q : α × DPOI => p.1 ≤ q.1) keyed
    have hmapped := hperm.map Prod.snd
    rw [hmap] at hmapped
    exact hmapped

/-- The dynamic greedy chain succeeds on numeric coordinates. -/
theorem dynChain_ok {α : Type} [LinearOrder α] (dist : ℚ → ℚ → ℚ → ℚ → α) :
    ∀ (n : Nat) (ref : DPOI) (l : List DPOI),
      ((∃ qa, ref.latitude = PyVal.vnum qa) ∧ (∃ qb, ref.longitude = PyVal.vnum qb)) →
      (∀ x ∈ l, (∃ qc, x.latitude = PyVal.vnum qc) ∧ (∃ qd, x.longitude = PyVal.vnum qd)) →
      ∃ out, dynChain dist n ref l = .ok out := by
  intro n
  induction n with
  | zero => intro ref l _ _; exact ⟨[], rfl⟩
  | succ n ih =>
    intro ref l href hl
    match l with
    | [] => exact ⟨[], rfl⟩
    | x :: xs =>
      obtain ⟨out, hout, hperm⟩ := dynSort_ok dist ref (x :: xs) href.1 href.2 hl
      cases out with
      | nil =>
        refine ⟨[], ?_⟩
        simp only [dynChain]
        rw [hout]
      | cons b rest =>
        obtain ⟨more, hmore⟩ := ih b rest (hl b (hperm.subset (List.mem_cons_self b rest)))
          (fun y hy => hl y (hperm.subset (List.mem_cons_of_mem b hy)))
        refine ⟨b :: more, ?_⟩
        simp only [dynChain]
        rw [hout]
        dsimp only
        rw [hmore]

/-- The dynamic `_pick_nearby` succeeds whenever every pool record's
coordinates are numeric or falsy — the eligibility filter drops the falsy
ones, so every surviving coordinate is numeric. -/
theorem dynPickNearby_ok {α : Type} [LinearOrder α] (dist : ℚ → ℚ → ℚ → ℚ → α)
    (items : List DPOI) (k : Nat) (used : Finset String) (seed : Nat)
    (hsafe : ∀ x ∈ items, x.latitude.numOrFalsy = true ∧ x.longitude.numOrFalsy = true) :
    ∃ out, dynPickNearby dist items k used seed = .ok out := by
  unfold dynPickNearby
  set available := items.filter (dynEligible used) with hav
  have havn : ∀ x ∈ available,
      (∃ qc, x.latitude = PyVal.vnum qc) ∧ (∃ qd, x.longitude = PyVal.vnum qd) := by
    intro x hx
    rw [hav] at hx
    have hm := List.mem_filter.mp hx
    have he := hm.2
    simp only [dynEligible, Bool.and_eq_true] at he
    exact ⟨truthy_numOrFalsy_vnum he.1.2 (hsafe x hm.1).1,
      truthy_numOrFalsy_vnum he.2 (hsafe x hm.1).2⟩
  by_cases h0 : available = []
  · exact ⟨[], by simp [h0]⟩
  · by_cases hk : available.length ≤ k
    · exact ⟨available, by simp [h0, hk]⟩
    · have hi : seed % available.length < available.length :=
        Nat.mod_lt _ (List.length_pos.mpr h0)
      have hfirst := havn _ (getD_mem_of_lt hi)
      have herase : ∀ y ∈ available.eraseIdx (seed % available.length),
          (∃ qc, y.latitude = PyVal.vnum qc) ∧ (∃ qd, y.longitude = PyVal.vnum qd) :=
        fun y hy => havn y ((cons_eraseIdx_perm hi).subset (List.mem_cons_of_mem _ hy))
      obtain ⟨out, hout⟩ := dynChain_ok dist (k - 1)
        (available.getD (seed % available.length) default)
        (available.eraseIdx (seed % available.length)) hfirst herase
      refine ⟨available.getD (seed % available.length) default :: out, ?_⟩
      simp only [h0, hk, if_false]
      rw [hout]

/-- The dynamic day loop succeeds whenever every site record's coordinates
are numeric or falsy. -/
theorem dynPlanDays_ok {α : Type} [LinearOrder α] (dist : ℚ → ℚ → ℚ → ℚ → α) (g : Nat → Nat)
    (sitesOk restaurantsOk : List DPOI) (start : Nat)
    (hsafe : ∀ x ∈ sitesOk, x.latitude.numOrFalsy = true ∧ x.longitude.numOrFalsy = true) :
    ∀ (n i : Nat) (usedR usedA : Finset String),
      ∃ out, dynPlanDays dist g sitesOk restaurantsOk start n i usedR usedA = .ok out := by
  intro n
  induction n with
  | zero => intro i uR uA; exact ⟨([], uR, uA), rfl⟩
  | succ n ih =>
    intro i uR uA
    obtain ⟨m, hm⟩ := dynPickNearby_ok dist sitesOk 2 uA (g (5 * i)) hsafe
    obtain ⟨a, ha⟩ := dynPickNearby_ok dist sitesOk 2
      (m.foldl (fun u x => insert x.name u) uA) (g (5 * i + 1)) hsafe
    simp only [dynPlanDays]
    rw [hm]
    dsimp only
    rw [ha]
    dsimp only
    obtain ⟨rest, hrest⟩ := ih (i + 1)
      (dynAddOptName
        (dynAddOptName (dynAddOptName uR (dynPickOne restaurantsOk uR (g (5 * i + 2))))
          (dynPickOne restaurantsOk (dynAddOptName uR (dynPickOne restaurantsOk uR (g (5 * i + 2))))
            (g (5 * i + 3))))
        (dynPickOne restaurantsOk
          (dynAddOptName (dynAddOptName uR (dynPickOne restaurantsOk uR (g (5 * i + 2))))
            (dynPickOne restaurantsOk (dynAddOptName uR (dynPickOne restaurantsOk uR (g (5 * i + 2))))
              (g (5 * i + 3))))
          (g (5 * i + 4))))
      (List.foldl (fun u a => insert a.name u) (List.foldl (fun u a => insert a.name u) uA m) a)
    rw [hrest]
    exact ⟨_, rfl⟩

/-- The dynamic `plan_trip` succeeds whenever every site record's
coordinates are numeric or falsy. -/
theorem dynPlanTrip_ok {α : Type} [LinearOrder α] (dist : ℚ → ℚ → ℚ → ℚ → α)
    (start n : Nat) (hotels restaurants sites : List DPOI) (hseed : Nat) (g : Nat → Nat)
    (hsafe : ∀ x ∈ sites, x.latitude.numOrFalsy = true ∧ x.longitude.numOrFalsy = true) :
    ∃ out, dynPlanTrip dist start n hotels restaurants sites hseed g = .ok out := by
  have hs1 : ∀ x ∈ sites.filter (fun s => s.latitude.truthy && s.longitude.truthy),
      x.latitude.numOrFalsy = true ∧ x.longitude.numOrFalsy = true :=
    fun x hx => hsafe x (List.mem_filter.mp hx).1
  obtain ⟨r, hr⟩ := dynPlanDays_ok dist g
    (sites.filter (fun s => s.latitude.truthy && s.longitude.truthy))
    (restaurants.filter (fun r => r.latitude.truthy && r.longitude.truthy))
    start hs1 n 0 ∅ ∅
  simp only [dynPlanTrip]
  rw [hr]
  exact ⟨_, rfl⟩

/-- C3 as stated is false: a site record whose latitude holds a non-numeric
string passes the truthiness eligibility filter, and the first day's
morning `_pick_nearby` call raises a `TypeError` inside the sort key
(`math.radians` on a string), which propagates out of `plan_trip`. -/
theorem C3_counterexample :
    dynPlanTrip (fun _ _ _ _ => (0 : ℚ)) 0 1 [] []
      [⟨"A", .vnum 1, .vnum 1⟩, ⟨"B", .vstr "x", .vnum 1⟩, ⟨"C", .vnum 2, .vnum 2⟩]
      0 (fun _ => 0) = .error () := by
  rfl

/-- C3 amended: records with missing or falsy coordinates are excluded by
the eligibility filter rather than causing a failure, and `_pick_one` and
`pick_unique_hotel` never raise (they are total); but the filter tests
truthiness only, so a truthy non-numeric coordinate reaches the distance
computation and raises.  Provided every truthy coordinate is numeric
(equivalently, every coordinate is numeric or falsy — the domain the
upstream loader guarantees), `_pick_nearby` and `plan_trip` raise no
exception. -/
theorem C3_no_exception_on_numeric_coords {α : Type} [LinearOrder α]
    (dist : ℚ → ℚ → ℚ → ℚ → α) :
    (∀ (items : List DPOI) (k : Nat) (used : Finset String) (seed : Nat),
        (∀ x ∈ items, x.latitude.numOrFalsy = true ∧ x.longitude.numOrFalsy = true) →
        ∃ out, dynPickNearby dist items k used seed = .ok out) ∧
    (∀ (start n : Nat) (hotels restaurants sites : List DPOI) (hseed : Nat) (g : Nat → Nat),
        (∀ x ∈ sites, x.latitude.numOrFalsy = true ∧ x.longitude.numOrFalsy = true) →
        ∃ out, dynPlanTrip dist start n hotels restaurants sites hseed g = .ok out) :=
  ⟨fun items k used seed hsafe => dynPickNearby_ok dist items k used seed hsafe,
   fun start n hotels restaurants sites hseed g hsafe =>
     dynPlanTrip_ok dist start n hotels restaurants sites hseed g hsafe⟩

/-- Witness for C3 amended: the same pool with the malformed record's
latitude corrected to a number yields a successful plan. -/
theorem C3_no_exception_on_numeric_coords_witness :
    ∃ out, dynPlanTrip (fun _ _ _ _ => (0 : ℚ)) 0 1 [] []
      [⟨"A", .vnum 1, .vnum 1⟩, ⟨"B", .vnum 3, .vnum 1⟩, ⟨"C", .vnum 2, .vnum 2⟩]
      0 (fun _ => 0) = .ok out :=
  (C3_no_exception_on_numeric_coords (fun _ _ _ _ => (0 : ℚ))).2 0 1 [] []
    [⟨"A", .vnum 1, .vnum 1⟩, ⟨"B", .vnum 3, .vnum 1⟩, ⟨"C", .vnum 2, .vnum 2⟩]
    0 (fun _ => 0) (by decide)
